import Mathlib

/-
Verification development for the r2-dev2 repository.

The definitions below are shallow embeddings of the frontend code in
src/frontend/src/utils/api.ts and src/frontend/src/app/chat/page.tsx.
JavaScript strings are modelled as Lean String values and all character
level operations are carried out on the underlying character lists, so
every definition is executable.  JavaScript truthiness on strings is
modelled explicitly (a string is truthy iff it is nonempty; an optional
string is truthy iff it is present and nonempty).

The backend service (FastAPI, NL2SQL translator, recommendation engine)
is not part of the source tree; where a claim depends on it, the missing
component is modelled from the specification and marked as such in its
doc comment.
-/

/-! ## String literal constants

All string literals of the development are bound here. -/

def quoteStr : String := "\""

def sepQuoteCommaQuote : String := "\",\""

def sorryFallbackText : String := "Sorry, something went wrong."

def roleUser : String := "user"

def kwSelect : String := "SELECT"

def kwInsert : String := "INSERT"

def kwUpdate : String := "UPDATE"

def kwDelete : String := "DELETE"

def kwDrop : String := "DROP"

def kwAlter : String := "ALTER"

def ctKey : String := "Content-Type"

def ctJson : String := "application/json"

def authKey : String := "Authorization"

def basicPfx : String := "Basic "

def colonStr : String := ":"

def spaceStr : String := " "

def lastActiveFailMsg : String := "Failed to fetch last active session: "

def invalidJsonMsg : String := "invalid json body"

def b64Alpha : String := "ABCDEFGHIJKLMNOPQRSTUVWXYZabcdefghijklmnopqrstuvwxyz0123456789+/"

/-! ## JavaScript string helpers

Models of the standard JavaScript string operations used by the code:
String.prototype.trim, the regex replacements of api.ts, split with a
string separator, and toUpperCase. -/

/-- Whitespace as recognised by JavaScript trim (the code points that occur
in practice: space, tab, line feed, carriage return, form feed, vertical
tab). -/
def isJsSpace (c : Char) : Bool :=
  c = ' ' || c = '\t' || c = '\n' || c = '\r' || c = '\x0c' || c = '\x0b'

/-- The characters removed at the end of a suggestion by the regex
[\\",]+$ in api.ts: backslash, double quote, comma. -/
def isBadEdge (c : Char) : Bool :=
  c = '\\' || c = '"' || c = ','

/-- Remove the longest trailing run of characters satisfying p. -/
def dropTrailingWhile (p : Char → Bool) (l : List Char) : List Char :=
  (l.reverse.dropWhile p).reverse

/-- Character list form of JavaScript trim. -/
def jsTrimL (l : List Char) : List Char :=
  dropTrailingWhile isJsSpace (l.dropWhile isJsSpace)

/-- Model of String.prototype.trim. -/
def jsTrim (s : String) : String :=
  ⟨jsTrimL s.data⟩

/-- Model of the replacement s.replace of the regex [\\",]+$ by the empty
string: removes every trailing backslash, quote and comma character. -/
def stripTrailBad (s : String) : String :=
  ⟨dropTrailingWhile isBadEdge s.data⟩

/-- cleanSuggestion from api.ts: s.trim() followed by removal of the
trailing [\\",]+ run. -/
def cleanSuggestion (s : String) : String :=
  stripTrailBad (jsTrim s)

/-- Does the first character of s satisfy p (false for the empty string)? -/
def headSatisfies (p : Char → Bool) (s : String) : Bool :=
  match s.data.head? with
  | some c => p c
  | none => false

/-- Does the last character of s satisfy p (false for the empty string)? -/
def lastSatisfies (p : Char → Bool) (s : String) : Bool :=
  match s.data.reverse.head? with
  | some c => p c
  | none => false

/-- The full cleanliness property asserted by the specification for
recommendation strings: no surrounding whitespace and no leading or
trailing quote, comma or backslash character. -/
def fullyClean (s : String) : Bool :=
  !(headSatisfies isJsSpace s) && !(lastSatisfies isJsSpace s) &&
    !(headSatisfies isBadEdge s) && !(lastSatisfies isBadEdge s)

/-- Model of toUpperCase restricted to the ASCII range used by the code. -/
def upperL (s : String) : String :=
  ⟨s.data.map Char.toUpper⟩

/-- Model of String.prototype.startsWith via the character lists. -/
def startsWithL (s pre : String) : Bool :=
  List.isPrefixOf pre.data s.data

/-- Splitter core for split with a nonempty string separator: scans left to
right, cutting at each non-overlapping occurrence of sep, exactly as
JavaScript String.prototype.split does for a nonempty string separator.
The fuel argument dominates the length of the remaining input. -/
def splitOnL (sep : List Char) : Nat → List Char → List Char → List (List Char)
  | 0, acc, _ => [acc.reverse]
  | _ + 1, acc, [] => [acc.reverse]
  | fuel + 1, acc, c :: rest =>
      if List.isPrefixOf sep (c :: rest) then
        acc.reverse :: splitOnL sep fuel [] ((c :: rest).drop sep.length)
      else
        splitOnL sep fuel (c :: acc) rest

/-- Model of s.split(sep) for a nonempty string separator. -/
def jsSplit (s sep : String) : List String :=
  (splitOnL sep.data (s.data.length + 1) [] s.data).map (fun l => ⟨l⟩)

/-- Model of the replacement of the regex with global flag matching a
leading or a trailing double quote by the empty string: removes one
leading quote if present, then one trailing quote if present. -/
def stripEdgeQuotes (s : String) : String :=
  let l1 := match s.data with
    | '"' :: r => r
    | l => l
  let l2 := match l1.reverse with
    | '"' :: r => r.reverse
    | _ => l1
  ⟨l2⟩

/-! ## JSON value model and a model of JSON.parse

The fallback branch of getRecommendations calls JSON.parse on the raw
suggestions string.  The parser below follows the JSON grammar: optional
whitespace, then one value (null, boolean, number, string with escapes,
array, object), then optional whitespace, then end of input.  The number
grammar is simplified to a nonempty run of number characters; no claim
exercises numeric input.  Recursion over nested values is fuelled. -/

inductive JsonVal where
  | jnull
  | jbool (b : Bool)
  | jnum (digits : String)
  | jstr (s : String)
  | jarr (elems : List JsonVal)
  | jobj (fields : List (String × JsonVal))

/-- JSON insignificant whitespace. -/
def isJsonWs (c : Char) : Bool :=
  c = ' ' || c = '\t' || c = '\n' || c = '\r'

def skipWs (l : List Char) : List Char :=
  l.dropWhile isJsonWs

/-- Single-character JSON string escapes. -/
def escChar (c : Char) : Option Char :=
  if c = '"' then some '"'
  else if c = '\\' then some '\\'
  else if c = '/' then some '/'
  else if c = 'b' then some '\x08'
  else if c = 'f' then some '\x0c'
  else if c = 'n' then some '\n'
  else if c = 'r' then some '\r'
  else if c = 't' then some '\t'
  else none

def hexDigit (c : Char) : Option Nat :=
  if c.isDigit then some (c.toNat - 48)
  else if 'a' ≤ c && c ≤ 'f' then some (c.toNat - 87)
  else if 'A' ≤ c && c ≤ 'F' then some (c.toNat - 55)
  else none

def hex4 (a b c d : Char) : Option Nat := do
  let x1 ← hexDigit a
  let x2 ← hexDigit b
  let x3 ← hexDigit c
  let x4 ← hexDigit d
  pure (((x1 * 16 + x2) * 16 + x3) * 16 + x4)

/-- Parse the body of a JSON string literal after the opening quote;
returns the decoded string and the input after the closing quote. -/
def parseStrBody : List Char → Option (String × List Char)
  | [] => none
  | '"' :: rest => some (⟨[]⟩, rest)
  | '\\' :: 'u' :: a :: b :: c :: d :: rest => do
      let n ← hex4 a b c d
      let (s, r) ← parseStrBody rest
      pure (⟨Char.ofNat n :: s.data⟩, r)
  | '\\' :: e :: rest => do
      let c ← escChar e
      let (s, r) ← parseStrBody rest
      pure (⟨c :: s.data⟩, r)
  | c :: rest => do
      let (s, r) ← parseStrBody rest
      pure (⟨c :: s.data⟩, r)

/-- Characters admitted by the simplified number grammar. -/
def numChar (c : Char) : Bool :=
  c.isDigit || c = '-' || c = '+' || c = '.' || c = 'e' || c = 'E'

def parseNum (l : List Char) : Option (JsonVal × List Char) :=
  let ds := l.takeWhile numChar
  if ds.isEmpty then none
  else some (.jnum ⟨ds⟩, l.drop ds.length)

mutual

def parseVal : Nat → List Char → Option (JsonVal × List Char)
  | 0, _ => none
  | fuel + 1, l =>
      match skipWs l with
      | 'n' :: 'u' :: 'l' :: 'l' :: r => some (.jnull, r)
      | 't' :: 'r' :: 'u' :: 'e' :: r => some (.jbool true, r)
      | 'f' :: 'a' :: 'l' :: 's' :: 'e' :: r => some (.jbool false, r)
      | '"' :: r =>
          match parseStrBody r with
          | some (s, r2) => some (.jstr s, r2)
          | none => none
      | '[' :: r =>
          (match skipWs r with
           | ']' :: r2 => some (.jarr [], r2)
           | _ =>
              match parseElems fuel r with
              | some (vs, r2) => some (.jarr vs, r2)
              | none => none)
      | '{' :: r =>
          (match skipWs r with
           | '}' :: r2 => some (.jobj [], r2)
           | _ =>
              match parseFields fuel r with
              | some (fs, r2) => some (.jobj fs, r2)
              | none => none)
      | l2 => parseNum l2

def parseElems : Nat → List Char → Option (List JsonVal × List Char)
  | 0, _ => none
  | fuel + 1, l => do
      let (v, r) ← parseVal fuel l
      match skipWs r with
      | ',' :: r2 => do
          let (vs, r3) ← parseElems fuel r2
          pure (v :: vs, r3)
      | ']' :: r2 => pure ([v], r2)
      | _ => none

def parseFields : Nat → List Char → Option (List (String × JsonVal) × List Char)
  | 0, _ => none
  | fuel + 1, l =>
      match skipWs l with
      | '"' :: r => do
          let (k, r2) ← parseStrBody r
          match skipWs r2 with
          | ':' :: r3 => do
              let (v, r4) ← parseVal fuel r3
              match skipWs r4 with
              | ',' :: r5 => do
                  let (fs, r6) ← parseFields fuel r5
                  pure ((k, v) :: fs, r6)
              | '}' :: r5 => pure ([(k, v)], r5)
              | _ => none
          | _ => none
      | _ => none

end

/-- Model of JSON.parse: some value when the whole input is one valid JSON
text, none when JSON.parse would throw. -/
def jsonParse (s : String) : Option JsonVal :=
  match parseVal (2 * s.data.length + 2) s.data with
  | some (v, rest) => if (skipWs rest).isEmpty then some v else none
  | none => none

/-! ## getRecommendations suggestion normalization (api.ts lines 209-232)

The suggestions field of the response body is modelled by the variant
type below.  All falsy field values (missing, undefined, null, false, 0)
behave identically in the normalization chain — every branch requires the
field to be truthy — and are conflated into the absent constructor; an
empty string is kept separate because it is a string whose falsiness the
code observes.  Arrays whose elements are not all strings reach the code
only through the JSON.parse fallback (where a thrown TypeError inside the
try block falls through to the string-splitting path); a directly
delivered array is modelled as an array of strings, matching the claims,
which all guard on that shape. -/

inductive Suggestions where
  | absent
  | strs (xs : List String)
  | rawStr (s : String)
  | otherTruthy
deriving DecidableEq

/-- The string-splitting fallback of api.ts (lines 224-227): remove one
leading and one trailing double quote, split on the quote-comma-quote
separator, and clean each piece. -/
def splitFallback (s : String) : List String :=
  (jsSplit (stripEdgeQuotes s) sepQuoteCommaQuote).map cleanSuggestion

/-- Extract the strings of a parsed JSON array when every element is a
string; none as soon as one element is not a string, in which case the
JavaScript map throws a TypeError that the surrounding catch turns into
the string-splitting fallback. -/
def allStrings (vs : List JsonVal) : Option (List String) :=
  vs.mapM (fun v => match v with
    | JsonVal.jstr s => some s
    | _ => none)

/-- Model of the suggestion post-processing of getRecommendations
(api.ts lines 214-232). -/
def normalizeSuggestions : Suggestions → Suggestions
  | Suggestions.strs xs => Suggestions.strs (xs.map cleanSuggestion)
  | Suggestions.rawStr s =>
      if s = ⟨[]⟩ then Suggestions.rawStr s
      else
        match jsonParse s with
        | some (JsonVal.jarr vs) =>
            (match allStrings vs with
             | some ss => Suggestions.strs (ss.map cleanSuggestion)
             | none => Suggestions.strs (splitFallback s))
        | some _ => Suggestions.rawStr s
        | none => Suggestions.strs (splitFallback s)
  | Suggestions.otherTruthy => Suggestions.strs []
  | Suggestions.absent => Suggestions.absent

/-! ## Chat page models (chat/page.tsx) -/

/-- JavaScript truthiness of an optional string state value. -/
def optTruthy : Option String → Bool
  | some s => s ≠ ⟨[]⟩
  | none => false

inductive Sender where
  | user
  | bot
deriving DecidableEq

structure DisplayMsg where
  text : String
  sender : Sender
deriving DecidableEq

structure AgentResp where
  response : String
  session_id : Option String
deriving DecidableEq

structure ChatState where
  messages : List DisplayMsg
  inputValue : String
  currentSessionId : Option String
deriving DecidableEq

structure TurnPayload where
  user_id : String
  query : String
  session_id : Option String
deriving DecidableEq

/-- The request body built by handleSendMessage (page.tsx lines 234-240):
session_id is included exactly when the current session id is truthy. -/
def buildPayload (uid : String) (st : ChatState) : TurnPayload :=
  { user_id := uid
    query := st.inputValue
    session_id := if optTruthy st.currentSessionId then st.currentSessionId else none }

/-- Model of handleSendMessage (page.tsx lines 220-265).  The network
outcome of sendMessage is passed explicitly: some data when the request
succeeded with parsed body data, none when it threw.  Returns the new
component state and the payload sent (none when the guard returned
early and no request was made). -/
def handleSendMessage (userOpt : Option String) (st : ChatState)
    (outcome : Option AgentResp) : ChatState × Option TurnPayload :=
  match userOpt with
  | none => (st, none)
  | some uid =>
      if jsTrim st.inputValue = ⟨[]⟩ then (st, none)
      else
        let payload := buildPayload uid st
        let afterUser := st.messages ++ [⟨st.inputValue, Sender.user⟩]
        match outcome with
        | some data =>
            let msgs := afterUser ++ [⟨data.response, Sender.bot⟩]
            let newSid :=
              if optTruthy data.session_id && !(optTruthy st.currentSessionId) then
                data.session_id
              else st.currentSessionId
            ({ messages := msgs, inputValue := ⟨[]⟩, currentSessionId := newSid },
             some payload)
        | none =>
            ({ messages := afterUser ++ [⟨sorryFallbackText, Sender.bot⟩],
               inputValue := ⟨[]⟩, currentSessionId := st.currentSessionId },
             some payload)

/-- Model of the fetchRecommendations effect of the chat page (page.tsx
lines 198-215).  The outcome argument is none when getRecommendations
threw (non-ok response or network error) and some s when it returned a
body whose raw suggestions field is s; the function yields the value
stored in the recommendations state after applying the normalization of
getRecommendations and the final fallback to the empty array. -/
def fetchRecommendationsResult (sid : Option String) (outcome : Option Suggestions) :
    Suggestions :=
  if !(optTruthy sid) then Suggestions.strs []
  else
    match outcome with
    | none => Suggestions.strs []
    | some s =>
        match normalizeSuggestions s with
        | Suggestions.absent => Suggestions.strs []
        | Suggestions.rawStr t =>
            if t = ⟨[]⟩ then Suggestions.strs [] else Suggestions.rawStr t
        | v => v

/-! ## History formatting (fetchMessagesCb, page.tsx lines 104-184) -/

/-- One raw history item as returned by the messages endpoint.  Fields the
formatter inspects are modelled as optional strings; none stands for an
absent field. -/
structure HistItem where
  role : Option String := none
  content : Option String := none
  message : Option String := none
  text : Option String := none
  user_message : Option String := none
  assistant_message : Option String := none
  query : Option String := none
  response : Option String := none
  type_ : Option String := none
  sender : Option String := none
  user_query : Option String := none
  assistant_response : Option String := none
  bot_message : Option String := none
deriving DecidableEq

/-- First truthy value of a chain of JavaScript string disjunctions. -/
def firstTruthy : List (Option String) → Option String
  | [] => none
  | x :: rest =>
      match x with
      | some s => if s ≠ ⟨[]⟩ then some s else firstTruthy rest
      | none => firstTruthy rest

/-- The text resolution item.content, then item.message, then item.text
used in the role-based and type-based branches. -/
def roleText (it : HistItem) : Option String :=
  firstTruthy [it.content, it.message, it.text]

/-- The display messages emitted for one history item, following the
branch chain of the formatter exactly. -/
def formatItem (it : HistItem) : List DisplayMsg :=
  if optTruthy it.role then
    match roleText it with
    | some t => [⟨t, if it.role = some roleUser then Sender.user else Sender.bot⟩]
    | none => []
  else if optTruthy it.user_message && optTruthy it.assistant_message then
    [⟨(it.user_message).getD ⟨[]⟩, Sender.user⟩,
     ⟨(it.assistant_message).getD ⟨[]⟩, Sender.bot⟩]
  else if optTruthy it.query && optTruthy it.response then
    [⟨(it.query).getD ⟨[]⟩, Sender.user⟩,
     ⟨(it.response).getD ⟨[]⟩, Sender.bot⟩]
  else if optTruthy it.type_ || optTruthy it.sender then
    match roleText it with
    | some t =>
        [⟨t, if it.type_ = some roleUser || it.sender = some roleUser
             then Sender.user else Sender.bot⟩]
    | none => []
  else
    let texts := ([it.user_message, it.query, it.user_query, it.message,
      it.assistant_message, it.response, it.assistant_response, it.bot_message,
      it.content, it.text].filterMap id).filter (fun s => s ≠ ⟨[]⟩)
    texts.enum.map (fun p =>
      ⟨p.2, if p.1 % 2 = 0 then Sender.user else Sender.bot⟩)

/-- The whole formatted sequence for a fetched history. -/
def formatMessages (items : List HistItem) : List DisplayMsg :=
  items.flatMap formatItem

/-! ## getLastActiveSession (api.ts lines 155-178) -/

/-- A fetch response: HTTP status, the parsed JSON body (none when the
body is not valid JSON, so that res.json() rejects), and the error text
used in thrown messages. -/
structure HttpResp where
  status : Nat
  jsonBody : Option JsonVal
  errText : String

/-- res.ok: status in the inclusive range 200-299. -/
def resOk (r : HttpResp) : Bool :=
  200 ≤ r.status && r.status ≤ 299

/-- Model of getLastActiveSession: ok left value models a thrown error,
right value the returned body, with JSON null standing for the returned
null. -/
def getLastActiveSession (r : HttpResp) : Except String JsonVal :=
  if !(resOk r) then
    if r.status = 404 then Except.ok JsonVal.jnull
    else Except.error (lastActiveFailMsg ++ toString r.status ++ spaceStr ++ r.errText)
  else
    match r.jsonBody with
    | some v => Except.ok v
    | none => Except.error invalidJsonMsg

/-! ## Basic authentication header (api.ts lines 22-47) and request headers -/

def b64CharAt (n : Nat) : Char :=
  b64Alpha.data.getD n 'A'

/-- Standard base64 of a byte sequence, three bytes at a time with padding. -/
def base64Chunks : List Nat → List Char
  | [] => []
  | [a] => [b64CharAt (a / 4), b64CharAt (a % 4 * 16), '=', '=']
  | [a, b] => [b64CharAt (a / 4), b64CharAt (a % 4 * 16 + b / 16),
               b64CharAt (b % 16 * 4), '=']
  | a :: b :: c :: rest =>
      b64CharAt (a / 4) :: b64CharAt (a % 4 * 16 + b / 16) ::
        b64CharAt (b % 16 * 4 + c / 64) :: b64CharAt (c % 64) :: base64Chunks rest

/-- Model of window.btoa on a Latin-1 string: base64 of the code points. -/
def btoa (s : String) : String :=
  ⟨base64Chunks (s.data.map Char.toNat)⟩

/-- Model of getBasicAuthHeader: the header list it contributes.  The two
environment variables are passed as optional strings; absent or empty
values are falsy. -/
def getBasicAuthHeader (envUser envPass : Option String) : List (String × String) :=
  if optTruthy envUser && optTruthy envPass then
    [(authKey, basicPfx ++ btoa ((envUser).getD ⟨[]⟩ ++ colonStr ++ (envPass).getD ⟨[]⟩))]
  else []

/-- Headers of the sendMessage request. -/
def sendMessageHeaders (envUser envPass : Option String) : List (String × String) :=
  (ctKey, ctJson) :: getBasicAuthHeader envUser envPass

/-- Headers of the deleteSession request. -/
def deleteSessionHeaders (envUser envPass : Option String) : List (String × String) :=
  getBasicAuthHeader envUser envPass

/-- Headers of the getRecommendations request. -/
def getRecommendationsHeaders (envUser envPass : Option String) : List (String × String) :=
  (ctKey, ctJson) :: getBasicAuthHeader envUser envPass

/-- Whether a header list carries an Authorization entry. -/
def hasAuthHeader (hs : List (String × String)) : Bool :=
  hs.any (fun h => h.1 = authKey)

/-! ## Spec-modelled backend components

The backend service is not part of the source tree (only the frontend is
under src/); the two components below are therefore modelled from the
specification, as their doc comments record. -/

/-- Modelled from the spec: the backend Recommendation Engine (service
code not present under src/) must return the suggestions field as a
finite ordered array of 2 to 3 short strings for any session history and
any raw generation output. -/
def engineOutputOk (resp : Suggestions) : Prop :=
  ∃ xs : List String, resp = Suggestions.strs xs ∧ 2 ≤ xs.length ∧ xs.length ≤ 3

def sqlForbiddenKeywords : List String :=
  [kwInsert, kwUpdate, kwDelete, kwDrop, kwAlter]

/-- Does pat occur as a contiguous run inside the second list? -/
def hasRun (pat : List Char) : List Char → Bool
  | [] => pat.isEmpty
  | c :: rest => List.isPrefixOf pat (c :: rest) || hasRun pat rest

/-- Does the statement contain one of the forbidden DML and DDL keywords,
case-insensitively? -/
def sqlHasForbiddenKeyword (stmt : String) : Bool :=
  sqlForbiddenKeywords.any (fun kw => hasRun kw.data (upperL stmt).data)

/-- Does the statement contain a semicolon statement separator? -/
def sqlHasSemicolon (stmt : String) : Bool :=
  stmt.data.any (fun c => c = ';')

/-- Modelled from the spec: the NL2SQL safety guard (backend translator
code not present under src/).  A generated statement passes the guard
exactly when it is a single SELECT: it starts with the SELECT keyword
after trimming, contains none of INSERT, UPDATE, DELETE, DROP, ALTER,
and contains no semicolon separator. -/
def sqlSafe (stmt : String) : Bool :=
  startsWithL (jsTrim (upperL stmt)) kwSelect &&
    !(sqlHasForbiddenKeyword stmt) && !(sqlHasSemicolon stmt)

/-- Modelled from the spec: the per-turn NL2SQL path as a state machine
(backend translator code not present under src/).  A generated statement
is checked by the guard before execution; an unsafe statement moves to a
terminal apologetic state; an execution error allows exactly one
corrective regeneration; a second failure terminates the path. -/
inductive NlState where
  | generated (stmt : String) (attempt : Nat)
  | executing (stmt : String) (attempt : Nat)
  | execFailed (stmt : String) (attempt : Nat)
  | answered
  | rejectedUnsafe (stmt : String)
  | failedTerminal

/-- Modelled from the spec: the transitions of the NL2SQL path. -/
inductive NlStep : NlState → NlState → Prop where
  | passGuard : ∀ stmt n, sqlSafe stmt = true →
      NlStep (NlState.generated stmt n) (NlState.executing stmt n)
  | failGuard : ∀ stmt n, sqlSafe stmt = false →
      NlStep (NlState.generated stmt n) (NlState.rejectedUnsafe stmt)
  | execOk : ∀ stmt n,
      NlStep (NlState.executing stmt n) NlState.answered
  | execErr : ∀ stmt n,
      NlStep (NlState.executing stmt n) (NlState.execFailed stmt n)
  | regenerate : ∀ stmt stmt2,
      NlStep (NlState.execFailed stmt 0) (NlState.generated stmt2 1)
  | giveUp : ∀ stmt n, 1 ≤ n →
      NlStep (NlState.execFailed stmt n) NlState.failedTerminal

/-! ## Concrete inputs used by counterexamples and witnesses -/

def cx1Input : String := " \"Do X , "

def cx1Output : String := "\"Do X "

def c2raw : String := "\"Do X\",\"Do Y\","

def doX : String := "Do X"

def doY : String := "Do Y"

def sugA : String := "Look at ticket 7"

def sugB : String := "Summarize the PR"

def pairAB : List String := [sugA, sugB]

def safeQuery : String := "SELECT 1"

def wMsg : String := "hi"

def wUid : String := "u1"

def wResp : String := "hello"

def wSid : String := "s1"

def roleAssistant : String := "assistant"

def witnessItems : List HistItem :=
  [{ role := some roleUser, content := some wMsg },
   { role := some roleAssistant, content := some wResp }]

def cx9resp : HttpResp := ⟨200, some JsonVal.jnull, ⟨[]⟩⟩

def wResp404 : HttpResp := ⟨404, none, ⟨[]⟩⟩

def wResp500 : HttpResp := ⟨500, none, ⟨[]⟩⟩

def wResp200 : HttpResp := ⟨200, some (JsonVal.jstr wMsg), ⟨[]⟩⟩

def envU : String := "r2-dev2"

def envP : String := "MayThe404BeWithYou!"

/-! ## Helper lemmas on the string operations -/

theorem head_dropWhile (p : Char → Bool) (l : List Char) :
    ∀ c, (l.dropWhile p).head? = some c → p c = false := by
  induction l with
  | nil => intro c h; simp [List.dropWhile] at h
  | cons a t ih =>
      intro c h
      by_cases hp : p a = true
      · rw [List.dropWhile_cons, if_pos hp] at h
        exact ih c h
      · rw [List.dropWhile_cons, if_neg hp] at h
        simp at h
        rw [← h]
        simpa using hp

theorem exists_append_dropWhile (p : Char → Bool) (l : List Char) :
    ∃ t, t ++ l.dropWhile p = l := by
  induction l with
  | nil => exact ⟨[], rfl⟩
  | cons a t ih =>
      by_cases hp : p a = true
      · obtain ⟨u, hu⟩ := ih
        exact ⟨a :: u, by simp [List.dropWhile_cons, hp, hu]⟩
      · exact ⟨[], by simp [List.dropWhile_cons, hp]⟩

theorem dropTrailingWhile_append (p : Char → Bool) (l : List Char) :
    ∃ t, dropTrailingWhile p l ++ t = l := by
  obtain ⟨u, hu⟩ := exists_append_dropWhile p l.reverse
  refine ⟨u.reverse, ?_⟩
  have h2 := congrArg List.reverse hu
  simpa [dropTrailingWhile, List.reverse_append] using h2

theorem head_of_append (l t : List Char) (c : Char) (h : l.head? = some c) :
    (l ++ t).head? = some c := by
  cases l with
  | nil => simp at h
  | cons a r => simpa using h

theorem head_dropTrailingWhile (p : Char → Bool) (l : List Char) (c : Char)
    (h : (dropTrailingWhile p l).head? = some c) : l.head? = some c := by
  obtain ⟨t, ht⟩ := dropTrailingWhile_append p l
  rw [← ht]
  exact head_of_append _ _ _ h

theorem headSatisfies_eq_false (p : Char → Bool) (s : String)
    (h : ∀ c, s.data.head? = some c → p c = false) :
    headSatisfies p s = false := by
  unfold headSatisfies
  split
  · apply h; assumption
  · rfl

theorem lastSatisfies_eq_false (p : Char → Bool) (s : String)
    (h : ∀ c, s.data.reverse.head? = some c → p c = false) :
    lastSatisfies p s = false := by
  unfold lastSatisfies
  split
  · apply h; assumption
  · rfl

theorem cleanSuggestion_data (s : String) :
    (cleanSuggestion s).data = dropTrailingWhile isBadEdge (jsTrimL s.data) := rfl

/-- After cleanSuggestion the first character is never whitespace. -/
theorem cleanSuggestion_head (s : String) :
    headSatisfies isJsSpace (cleanSuggestion s) = false := by
  apply headSatisfies_eq_false
  intro c hc
  rw [cleanSuggestion_data] at hc
  have h1 : (jsTrimL s.data).head? = some c := head_dropTrailingWhile _ _ _ hc
  unfold jsTrimL at h1
  have h2 : (s.data.dropWhile isJsSpace).head? = some c :=
    head_dropTrailingWhile _ _ _ h1
  exact head_dropWhile isJsSpace _ c h2

/-- After cleanSuggestion the last character is never a backslash, quote or
comma. -/
theorem cleanSuggestion_last (s : String) :
    lastSatisfies isBadEdge (cleanSuggestion s) = false := by
  apply lastSatisfies_eq_false
  intro c hc
  rw [cleanSuggestion_data] at hc
  have hrw : (dropTrailingWhile isBadEdge (jsTrimL s.data)).reverse
      = (jsTrimL s.data).reverse.dropWhile isBadEdge := by
    simp [dropTrailingWhile]
  rw [hrw] at hc
  exact head_dropWhile isBadEdge _ c hc

/-! ## Claim theorems -/

/-- C1 (counterexample): the claim that every string in a normalized
suggestions array is trimmed of surrounding whitespace and free of
leading and trailing quote, comma and backslash characters is false: on
the response whose suggestions array is the single string of cx1Input,
getRecommendations returns the string cx1Output, which starts with a
double quote and ends with a space. -/
theorem claim1_counterexample :
    normalizeSuggestions (Suggestions.strs [cx1Input]) = Suggestions.strs [cx1Output] ∧
    fullyClean cx1Output = false ∧
    headSatisfies isBadEdge cx1Output = true ∧
    lastSatisfies isJsSpace cx1Output = true := by
  refine ⟨by decide, by decide, by decide, by decide⟩

/-- C1 (amended): for every recommendations response whose suggestions
field is an array of strings, getRecommendations maps cleanSuggestion
over it, and every resulting string is free of leading whitespace and of
trailing quote, comma and backslash characters (leading punctuation, and
trailing whitespace re-exposed by stripping trailing punctuation, may
remain). -/
theorem claim1_amended (xs : List String) :
    normalizeSuggestions (Suggestions.strs xs) = Suggestions.strs (xs.map cleanSuggestion) ∧
    ∀ s, s ∈ xs →
      headSatisfies isJsSpace (cleanSuggestion s) = false ∧
      lastSatisfies isBadEdge (cleanSuggestion s) = false := by
  refine ⟨rfl, ?_⟩
  intro s _
  exact ⟨cleanSuggestion_head s, cleanSuggestion_last s⟩

/-- C1 (witness): the amended statement applied to the concrete
one-element suggestions array holding cx1Input. -/
theorem claim1_witness :
    normalizeSuggestions (Suggestions.strs [cx1Input]) =
      Suggestions.strs ([cx1Input].map cleanSuggestion) ∧
    (headSatisfies isJsSpace (cleanSuggestion cx1Input) = false ∧
     lastSatisfies isBadEdge (cleanSuggestion cx1Input) = false) := by
  exact ⟨(claim1_amended [cx1Input]).1,
    (claim1_amended [cx1Input]).2 cx1Input (by simp)⟩

/-- C2: the raw suggestions string of c2raw — a quoted, comma-joined,
trailing-comma string that is not valid JSON — is normalized by
getRecommendations to exactly the two-element array of doX and doY. -/
theorem claim2_roundtrip :
    normalizeSuggestions (Suggestions.rawStr c2raw) = Suggestions.strs [doX, doY] := by
  decide

/-- C3: assuming the backend recommendation engine meets its specified
contract (suggestions is an array of 2 to 3 strings), the suggestions
value delivered by getRecommendations after normalization is again an
array of 2 to 3 strings. -/
theorem claim3_bounds (resp : Suggestions) (h : engineOutputOk resp) :
    ∃ ys : List String, normalizeSuggestions resp = Suggestions.strs ys ∧
      2 ≤ ys.length ∧ ys.length ≤ 3 := by
  obtain ⟨xs, rfl, h2, h3⟩ := h
  exact ⟨xs.map cleanSuggestion, rfl, by simpa using h2, by simpa using h3⟩

/-- C3 (witness): the bound holds on a concrete two-suggestion response. -/
theorem claim3_witness :
    engineOutputOk (Suggestions.strs pairAB) ∧
    ∃ ys : List String, normalizeSuggestions (Suggestions.strs pairAB) = Suggestions.strs ys ∧
      2 ≤ ys.length ∧ ys.length ≤ 3 := by
  have h : engineOutputOk (Suggestions.strs pairAB) :=
    ⟨pairAB, rfl, by decide, by decide⟩
  exact ⟨h, claim3_bounds (Suggestions.strs pairAB) h⟩

/-- C4: in the spec-modelled NL2SQL path, every statement that reaches
execution passes the safety guard — it is a single SELECT with none of
the INSERT, UPDATE, DELETE, DROP, ALTER keywords and no semicolon
separator; a generated statement failing the guard can only move to the
terminal apologetic state, from which no transition (in particular no
retry against the database) exists. -/
theorem claim4_safety :
    (∀ s stmt n, NlStep s (NlState.executing stmt n) →
        sqlSafe stmt = true ∧ sqlHasForbiddenKeyword stmt = false ∧
          sqlHasSemicolon stmt = false ∧
          startsWithL (jsTrim (upperL stmt)) kwSelect = true) ∧
    (∀ stmt n t, sqlSafe stmt = false → NlStep (NlState.generated stmt n) t →
        t = NlState.rejectedUnsafe stmt) ∧
    (∀ stmt t, ¬ NlStep (NlState.rejectedUnsafe stmt) t) := by
  refine ⟨?_, ?_, ?_⟩
  · intro s stmt n h
    cases h with
    | passGuard _ _ hs =>
        refine ⟨hs, ?_⟩
        have h1 := hs
        simp only [sqlSafe, Bool.and_eq_true, Bool.not_eq_true'] at h1
        exact ⟨h1.1.2, h1.2, h1.1.1⟩
  · intro stmt n t hfalse h
    cases h with
    | passGuard _ _ hs => rw [hs] at hfalse; cases hfalse
    | failGuard _ _ _ => rfl
  · intro stmt t h
    cases h

/-- C4 (witness): the guard facts extracted from the concrete transition
that passes the safe query safeQuery to execution. -/
theorem claim4_witness :
    sqlSafe safeQuery = true ∧ sqlHasForbiddenKeyword safeQuery = false ∧
      sqlHasSemicolon safeQuery = false ∧
      startsWithL (jsTrim (upperL safeQuery)) kwSelect = true := by
  exact claim4_safety.1 (NlState.generated safeQuery 0) safeQuery 0
    (NlStep.passGuard safeQuery 0 (by decide))

/-- C5: every turn actually submitted through handleSendMessage (nonblank
input, user present) appends exactly one user message and exactly one
assistant-visible message: the agent response on success, the fallback
text on failure — no submitted turn ends without an assistant message. -/
theorem claim5_turn (uid : String) (st : ChatState) (outcome : Option AgentResp)
    (h : jsTrim st.inputValue ≠ ⟨[]⟩) :
    (handleSendMessage (some uid) st outcome).1.messages =
      st.messages ++ [⟨st.inputValue, Sender.user⟩,
        ⟨(match outcome with
          | some d => d.response
          | none => sorryFallbackText), Sender.bot⟩] := by
  cases outcome with
  | some d => simp [handleSendMessage, h]
  | none => simp [handleSendMessage, h]

/-- C5 (witness): a concrete successful turn appends the user message and
the agent response. -/
theorem claim5_witness :
    (handleSendMessage (some wUid) ⟨[], wMsg, none⟩ (some ⟨wResp, none⟩)).1.messages =
      [] ++ [⟨wMsg, Sender.user⟩, ⟨wResp, Sender.bot⟩] := by
  exact claim5_turn wUid ⟨[], wMsg, none⟩ (some ⟨wResp, none⟩) (by decide)

/-- C6: when no session is selected, the request payload carries no
session_id; on success the truthy session_id of the response becomes the
current session, and any later turn started with a truthy current
session sends exactly that id. -/
theorem claim6_session (uid : String) (st : ChatState) (d : AgentResp)
    (h1 : optTruthy st.currentSessionId = false)
    (h2 : jsTrim st.inputValue ≠ ⟨[]⟩) :
    ((handleSendMessage (some uid) st (some d)).2 = some (buildPayload uid st) ∧
      (buildPayload uid st).session_id = none) ∧
    (∀ sid, d.session_id = some sid → sid ≠ ⟨[]⟩ →
      (handleSendMessage (some uid) st (some d)).1.currentSessionId = some sid) ∧
    (∀ st2 : ChatState, ∀ sid, st2.currentSessionId = some sid → sid ≠ ⟨[]⟩ →
      (buildPayload uid st2).session_id = some sid) := by
  refine ⟨⟨?_, ?_⟩, ?_, ?_⟩
  · simp [handleSendMessage, h2]
  · simp [buildPayload, h1]
  · intro sid hsid hne
    have hd : optTruthy (some sid) = true := by simp [optTruthy, hne]
    simp [handleSendMessage, h2, h1, hsid, hd]
  · intro st2 sid hsid hne
    have hd : optTruthy (some sid) = true := by simp [optTruthy, hne]
    simp [buildPayload, hsid, hd]

/-- C6 (witness): a concrete first turn with no current session sends no
session_id and adopts the session id returned by the agent. -/
theorem claim6_witness :
    (handleSendMessage (some wUid) ⟨[], wMsg, none⟩ (some ⟨wResp, some wSid⟩)).2 =
      some (buildPayload wUid ⟨[], wMsg, none⟩) ∧
    (buildPayload wUid ⟨[], wMsg, none⟩).session_id = none ∧
    (handleSendMessage (some wUid) ⟨[], wMsg, none⟩
        (some ⟨wResp, some wSid⟩)).1.currentSessionId = some wSid := by
  have h := claim6_session wUid ⟨[], wMsg, none⟩ ⟨wResp, some wSid⟩ (by decide) (by decide)
  exact ⟨h.1.1, h.1.2, h.2.1 wSid rfl (by decide)⟩

/-- C7: the chat page recommendation list is the empty array whenever no
session is selected, whenever fetching recommendations fails, and
whenever the response carries no suggestions field — never an error
state. -/
theorem claim7_empty (sid : Option String) (outcome : Option Suggestions) :
    (optTruthy sid = false → fetchRecommendationsResult sid outcome = Suggestions.strs []) ∧
    (outcome = none → fetchRecommendationsResult sid outcome = Suggestions.strs []) ∧
    (outcome = some Suggestions.absent →
      fetchRecommendationsResult sid outcome = Suggestions.strs []) := by
  refine ⟨?_, ?_, ?_⟩
  · intro h
    simp [fetchRecommendationsResult, h]
  · intro h
    subst h
    by_cases hs : optTruthy sid <;> simp [fetchRecommendationsResult, hs]
  · intro h
    subst h
    by_cases hs : optTruthy sid <;>
      simp [fetchRecommendationsResult, hs, normalizeSuggestions]

/-- C7 (witness): the three empty-list cases at concrete inputs. -/
theorem claim7_witness :
    fetchRecommendationsResult none none = Suggestions.strs [] ∧
    fetchRecommendationsResult (some wSid) none = Suggestions.strs [] ∧
    fetchRecommendationsResult (some wSid) (some Suggestions.absent) =
      Suggestions.strs [] := by
  exact ⟨(claim7_empty none none).1 (by decide),
    (claim7_empty (some wSid) none).2.1 rfl,
    (claim7_empty (some wSid) (some Suggestions.absent)).2.2 rfl⟩

/-- C8: when every fetched history item carries a truthy role and a
truthy text resolution, the formatter emits exactly one display message
per item, in the order the items were returned, with sender user exactly
when the role equals the string user and bot otherwise. -/
theorem claim8_roles (items : List HistItem)
    (h : ∀ it ∈ items, optTruthy it.role = true ∧ (roleText it).isSome = true) :
    formatMessages items =
      items.map (fun it =>
        ⟨(roleText it).getD ⟨[]⟩,
         if it.role = some roleUser then Sender.user else Sender.bot⟩) := by
  induction items with
  | nil => rfl
  | cons a t ih =>
      obtain ⟨h1, h2⟩ := h a (List.mem_cons_self a t)
      have ih2 := ih (fun it hit => h it (List.mem_cons_of_mem a hit))
      cases hrt : roleText a with
      | none => rw [hrt] at h2; simp at h2
      | some t0 =>
          have hfa : formatItem a =
              [⟨t0, if a.role = some roleUser then Sender.user else Sender.bot⟩] := by
            simp [formatItem, h1, hrt]
          simp only [formatMessages, List.flatMap_cons, List.map_cons] at ih2 ⊢
          rw [hfa, ih2, hrt]
          simp

/-- C8 (witness): a concrete two-item history with roles user and
assistant formats to one user display message followed by one bot
display message. -/
theorem claim8_witness :
    formatMessages witnessItems =
      [⟨wMsg, Sender.user⟩, ⟨wResp, Sender.bot⟩] := by
  have h := claim8_roles witnessItems (by decide)
  rw [h]
  decide

/-- C9 (counterexample): getLastActiveSession does not return null only
on status 404 — an ok response whose body is JSON null also returns
null, as the concrete 200 response cx9resp shows. -/
theorem claim9_counterexample :
    getLastActiveSession cx9resp = Except.ok JsonVal.jnull ∧
    cx9resp.status ≠ 404 := by
  exact ⟨rfl, by decide⟩

/-- C9 (amended): getLastActiveSession returns null whenever the status
is 404; for every other non-ok status it throws; for every ok status it
returns the parsed response body — which is null exactly when that body
is itself JSON null. -/
theorem claim9_amended (r : HttpResp) :
    (r.status = 404 → getLastActiveSession r = Except.ok JsonVal.jnull) ∧
    (resOk r = false → r.status ≠ 404 → ∃ e, getLastActiveSession r = Except.error e) ∧
    (resOk r = true → ∀ v, r.jsonBody = some v → getLastActiveSession r = Except.ok v) := by
  refine ⟨?_, ?_, ?_⟩
  · intro h
    have hok : resOk r = false := by unfold resOk; rw [h]; decide
    simp [getLastActiveSession, hok, h]
  · intro hok hne
    unfold getLastActiveSession
    rw [hok]
    simp only [Bool.not_false, if_true]
    rw [if_neg hne]
    exact ⟨_, rfl⟩
  · intro hok v hv
    simp [getLastActiveSession, hok, hv]

/-- C9 (witness): the three branches at concrete responses — a 404
returning null, a 500 throwing, and an ok response returning its parsed
body. -/
theorem claim9_witness :
    getLastActiveSession wResp404 = Except.ok JsonVal.jnull ∧
    (∃ e, getLastActiveSession wResp500 = Except.error e) ∧
    getLastActiveSession wResp200 = Except.ok (JsonVal.jstr wMsg) := by
  exact ⟨(claim9_amended wResp404).1 rfl,
    (claim9_amended wResp500).2.1 (by decide) (by decide),
    (claim9_amended wResp200).2.2 (by decide) (JsonVal.jstr wMsg) rfl⟩

/-- C10: getBasicAuthHeader yields exactly the Basic header with the
base64 of user, colon, pass when both credentials are truthy and the
empty header list otherwise; consequently the sendMessage, deleteSession
and getRecommendations requests carry an Authorization header if and
only if both credentials are configured. -/
theorem claim10_auth (envUser envPass : Option String) :
    (optTruthy envUser = true → optTruthy envPass = true →
      getBasicAuthHeader envUser envPass =
        [(authKey, basicPfx ++
            btoa ((envUser).getD ⟨[]⟩ ++ colonStr ++ (envPass).getD ⟨[]⟩))]) ∧
    ((optTruthy envUser && optTruthy envPass) = false →
      getBasicAuthHeader envUser envPass = []) ∧
    (hasAuthHeader (sendMessageHeaders envUser envPass) =
      (optTruthy envUser && optTruthy envPass)) ∧
    (hasAuthHeader (deleteSessionHeaders envUser envPass) =
      (optTruthy envUser && optTruthy envPass)) ∧
    (hasAuthHeader (getRecommendationsHeaders envUser envPass) =
      (optTruthy envUser && optTruthy envPass)) := by
  refine ⟨?_, ?_, ?_, ?_, ?_⟩
  · intro hu hp
    simp [getBasicAuthHeader, hu, hp]
  · intro h
    simp [getBasicAuthHeader, h]
  · by_cases hu : optTruthy envUser <;> by_cases hp : optTruthy envPass <;>
      simp [hasAuthHeader, sendMessageHeaders, getBasicAuthHeader, hu, hp,
        ctKey, authKey]
  · by_cases hu : optTruthy envUser <;> by_cases hp : optTruthy envPass <;>
      simp [hasAuthHeader, deleteSessionHeaders, getBasicAuthHeader, hu, hp, authKey]
  · by_cases hu : optTruthy envUser <;> by_cases hp : optTruthy envPass <;>
      simp [hasAuthHeader, getRecommendationsHeaders, getBasicAuthHeader, hu, hp,
        ctKey, authKey]

/-- C10 (witness): with both credentials set the Basic header is present
on the requests; with the password missing the header list contributed
is empty and the delete request carries no Authorization header. -/
theorem claim10_witness :
    getBasicAuthHeader (some envU) (some envP) =
      [(authKey, basicPfx ++ btoa (envU ++ colonStr ++ envP))] ∧
    hasAuthHeader (sendMessageHeaders (some envU) (some envP)) = true ∧
    getBasicAuthHeader (some envU) none = [] ∧
    hasAuthHeader (deleteSessionHeaders (some envU) none) = false := by
  have ha := claim10_auth (some envU) (some envP)
  have hb := claim10_auth (some envU) none
  refine ⟨?_, ?_, ?_, ?_⟩
  · exact ha.1 (by decide) (by decide)
  · rw [ha.2.2.1]; decide
  · exact hb.2.1 (by decide)
  · rw [hb.2.2.2.1]; decide
